import Mathlib

/-!
Verification of the blum.bike web app session core
(`blumbike_web_app/app.py`): the Redis-backed telemetry store, the
session lifecycle driven by the `/update` webhook handler
(`rest_update`), and the dashboard callbacks `update_metrics` and
`update_control_sidebar`.

The Redis database is embedded as an explicit record `RState`.  Redis
lists written with `lpush` are Lean lists with the newest element at the
head; `r.exists` on a list key is "the list is non-empty" (Redis deletes
empty lists).  Python `float` channels are embedded as `ℚ`.  A payload
field that may be missing from the incoming JSON object is an `Option`;
reading a missing field raises (`KeyError`), which the embedding
renders as the `Reply.exn` outcome together with the state as mutated
up to the point of the raise — exactly the order of the Redis calls in
the handler.
-/

/-- The Redis database backing the app: four scalar keys and the four
parallel newest-first lists pushed by `new_data`. -/
structure RState where
  powered_on : Option Int
  session_start : Option Int
  session_end : Option Int
  bike_ip : Option String
  timestamp : List Int
  bike_mph : List ℚ
  resistance : List Int
  heart_bpm : List ℚ
deriving DecidableEq, Repr

/-- The state produced by `r.flushdb()`, and the initial state of a fresh
database. -/
def RState.empty : RState :=
  { powered_on := none, session_start := none, session_end := none,
    bike_ip := none, timestamp := [], bike_mph := [], resistance := [],
    heart_bpm := [] }

/-- `hasEnded()` of the session tracker: the `session_end` key is set. -/
def RState.hasEnded (s : RState) : Bool :=
  s.session_end.isSome

/-- Payload of a `new_data` event.  Each field is `none` when the key is
missing from the JSON object (reading it raises `KeyError`). -/
structure NewDataPayload where
  t : Option Int
  bike_mph : Option ℚ
  resistance : Option Int
  heart_bpm : Option ℚ
deriving DecidableEq, Repr

/-- An incoming webhook event, discriminated by the `event` key of the
decoded JSON object. -/
inductive Event where
  | powered_on (t : Option Int)
  | start_session (t : Option Int) (ip : Option String)
  | end_session (t : Option Int)
  | new_data (p : NewDataPayload)
  | unknown (name : String)
deriving DecidableEq, Repr

/-- The outcome of one request to `/update`: the JSON reply the handler
returns, or `exn` when the handler raises (missing payload field). -/
inductive Reply where
  | powerOn
  | started
  | ended
  | ignoredStale
  | appended
  | notUnderstood
  | exn
deriving DecidableEq, Repr

/-- The four `r.lpush` calls of the `new_data` branch, in source order
(`timestamp`, `bike_mph`, `resistance`, `heart_bpm`).  A missing field
raises after the earlier keys were already pushed. -/
def pushSample (s : RState) (t : Int) (p : NewDataPayload) : RState × Reply :=
  let s1 := { s with timestamp := t :: s.timestamp }
  match p.bike_mph with
  | none => (s1, .exn)
  | some mph =>
    let s2 := { s1 with bike_mph := mph :: s1.bike_mph }
    match p.resistance with
    | none => (s2, .exn)
    | some res =>
      let s3 := { s2 with resistance := res :: s2.resistance }
      match p.heart_bpm with
      | none => (s3, .exn)
      | some hb => ({ s3 with heart_bpm := hb :: s3.heart_bpm }, .appended)

/-- The `/update` webhook handler `rest_update`, one event at a time.
Branches and the order of Redis reads/writes follow the source:
`powered_on` sets `powered_on`; `start_session` flushes the whole
database, then sets `session_start` and `bike_ip`; `end_session` sets
`session_end` and deletes `bike_ip`; `new_data` is ignored as stale when
`(timestamp exists and head > t) or session_end exists` (with Python
short-circuit evaluation, so `t` is only read when the `timestamp` list
is non-empty) and otherwise pushed onto the four lists; any other event
is answered `not understood`. -/
def rest_update (e : Event) (s : RState) : RState × Reply :=
  match e with
  | .powered_on t =>
    match t with
    | none => (s, .exn)
    | some t => ({ s with powered_on := some t }, .powerOn)
  | .start_session t ip =>
    let s1 := RState.empty
    match t with
    | none => (s1, .exn)
    | some t =>
      let s2 := { s1 with session_start := some t }
      match ip with
      | none => (s2, .exn)
      | some ip => ({ s2 with bike_ip := some ip }, .started)
  | .end_session t =>
    match t with
    | none => (s, .exn)
    | some t => ({ s with session_end := some t, bike_ip := none }, .ended)
  | .new_data p =>
    match s.timestamp with
    | h0 :: _ =>
      match p.t with
      | none => (s, .exn)
      | some t =>
        if h0 > t then (s, .ignoredStale)
        else if s.session_end.isSome then (s, .ignoredStale)
        else pushSample s t p
    | [] =>
      if s.session_end.isSome then (s, .ignoredStale)
      else
        match p.t with
        | none => (s, .exn)
        | some t => pushSample s t p
  | .unknown _ => (s, .notUnderstood)

/-- Run a list of webhook events from a starting state, oldest first. -/
def runEvents (es : List Event) (s : RState) : RState :=
  es.foldl (fun s e => (rest_update e s).1) s

/-- The staleness condition of the `new_data` branch, as a predicate on
the state and the incoming timestamp: a stored head timestamp strictly
exceeds `t`, or the session has ended. -/
def isStale (s : RState) (t : Int) : Prop :=
  (∃ h0, s.timestamp.head? = some h0 ∧ h0 > t) ∨ s.session_end.isSome

instance (s : RState) (t : Int) : Decidable (isStale s t) := by
  unfold isStale
  exact inferInstance

/-- Arithmetic mean of a rational series, `sum(xs)/len(xs)` with Python
true division. -/
def mean (l : List ℚ) : ℚ :=
  l.sum / (l.length : ℚ)

/-- Arithmetic mean of an integer series, `sum(xs)/len(xs)` with Python
true division (the result is a float, here a rational). -/
def meanInt (l : List Int) : ℚ :=
  ((l.sum : ℚ)) / (l.length : ℚ)

/-- Duration shown for a finished session.  Modelled from the spec: the
source formats `natural.date.delta(start_datetime, end_datetime)`, a
library call outside this repository rendering the elapsed time between
the two instants; its determining quantity is `endedAt - startedAt`. -/
def date_delta (st en : Int) : Int :=
  en - st

/-- The result of the stats sidebar callback `update_metrics`:
the waiting placeholder, the live view (start time and the head of each
channel plus the head timestamp), or the final summary (duration, end
time, mean and max of speed, resistance and heart rate over the full
retained range). -/
inductive Summary where
  | waiting
  | live (startedAt : Int) (curSpeed : ℚ) (curRes : Int) (curHeart : ℚ)
      (lastUpdate : Int)
  | final (duration : Int) (endedAt : Int) (speedMean speedMax : ℚ)
      (resMean : ℚ) (resMax : Int) (heartMean heartMax : ℚ)
deriving DecidableEq, Repr

/-- The stats sidebar callback `update_metrics`, as a function of the
database snapshot.  `none` is an unhandled exception: branch one reads
`session_start` unconditionally (`int(None)` raises when the key is
absent) and divides by `len(resistance_readings)` without a guard;
branch two reads the head of each list (`float(None)` raises on an
empty list).  Branch one falls through to the waiting placeholder when
the speed or heart series is empty. -/
def update_metrics (s : RState) : Option Summary :=
  if s.session_end.isSome && !s.timestamp.isEmpty then
    match s.session_start with
    | none => none
    | some st =>
      match s.session_end with
      | none => none
      | some en =>
        if !s.bike_mph.isEmpty && !s.heart_bpm.isEmpty then
          match s.bike_mph, s.resistance, s.heart_bpm with
          | m :: ms, r0 :: rs, h :: hs =>
            some (.final (date_delta st en) en
              (mean (m :: ms)) (ms.foldl max m)
              (meanInt (r0 :: rs)) (rs.foldl max r0)
              (mean (h :: hs)) (hs.foldl max h))
          | _, _, _ => none
        else some .waiting
  else if s.session_start.isSome && !s.timestamp.isEmpty then
    match s.session_start, s.bike_mph, s.resistance, s.heart_bpm,
        s.timestamp with
    | some st, m :: _, r0 :: _, h :: _, tt :: _ =>
      some (.live st m r0 h tt)
    | _, _, _, _, _ => none
  else some .waiting

/-- The resistance-control sidebar callback `update_control_sidebar`,
reduced to its authorization decision: the control is shown (true) when
the `bike_ip` key exists and equals the caller's address, or when the
app runs with the `mode=dev` environment setting. -/
def update_control_sidebar (devMode : Bool) (client_ip : String)
    (s : RState) : Bool :=
  (s.bike_ip.isSome && s.bike_ip == some client_ip) || devMode

/-- Modelled from the spec: the trimming policy of the telemetry store.
The enforcing code is absent from the handler (the `r.ltrim` calls at
`app.py` lines 159-162 are commented out, leaving the deployed store
unbounded); section 4.3 of the spec states that after an append, if a
positive maximum length is configured and exceeded, the oldest entries
are dropped to enforce the cap, and that no trimming occurs when the
length is unbounded (0).  Lists are newest-first, so the oldest entries
are at the tail and enforcing the cap keeps the first `maxLen`. -/
def trimSeries (maxLen : Nat) (l : List Int) : List Int :=
  if maxLen = 0 then l else l.take maxLen

/-- One append to a single bounded channel: push the new head, then trim
to the configured maximum length. -/
def appendTrim (maxLen : Nat) (t : Int) (l : List Int) : List Int :=
  trimSeries maxLen (t :: l)

/-- The equal-length invariant of the four parallel series. -/
def eqLens (s : RState) : Prop :=
  s.timestamp.length = s.bike_mph.length ∧
  s.timestamp.length = s.resistance.length ∧
  s.timestamp.length = s.heart_bpm.length

/-- All payload fields the handler reads for this event kind are present
in the JSON object. -/
def Event.wellFormed : Event → Prop
  | .powered_on t => t.isSome = true
  | .start_session t ip => t.isSome = true ∧ ip.isSome = true
  | .end_session t => t.isSome = true
  | .new_data p => p.t.isSome = true ∧ p.bike_mph.isSome = true ∧
      p.resistance.isSome = true ∧ p.heart_bpm.isSome = true
  | .unknown _ => True

/-- The database after an accepted `new_data` (t=5) on a fresh store
followed by `end_session` (t=6), with no `start_session` ever seen. -/
def orphanEndState : RState :=
  runEvents [.new_data ⟨some 5, some 10, some 3, some 80⟩,
    .end_session (some 6)] RState.empty

/-- The database after one accepted `new_data` sample (t=5) on a fresh
store. -/
def oneSampleState : RState :=
  (rest_update (.new_data ⟨some 5, some 10, some 3, some 80⟩)
    RState.empty).1

/-- C2: any `start_session` event resets the whole store: every previous
key and series is discarded, `startedAt` is the event's `t`,
`producerAddress` is the supplied origin address, and `hasEnded()` is
false. -/
theorem start_session_resets (s : RState) (t : Int) (ip : String) :
    rest_update (.start_session (some t) (some ip)) s =
      ({ RState.empty with session_start := some t, bike_ip := some ip },
        .started)
    ∧ (rest_update (.start_session (some t) (some ip)) s).1.hasEnded
        = false := by
  exact ⟨rfl, rfl⟩

/-- C7: processing the same `end_session` event twice is idempotent; the
second submission reproduces the state and reply of the first. -/
theorem end_session_idempotent (s : RState) (t : Int) :
    rest_update (.end_session (some t))
        ((rest_update (.end_session (some t)) s).1) =
      rest_update (.end_session (some t)) s := by
  rfl

/-- C8 counterexample: with the `mode=dev` environment setting, the
control-sidebar authorization returns true for a caller although no
producer address is tracked (`bike_ip` is absent), and keeps returning
true after an `end_session` event. -/
theorem control_sidebar_devmode_cex :
    update_control_sidebar true "1.2.3.4" RState.empty = true
    ∧ RState.empty.bike_ip = none
    ∧ update_control_sidebar true "1.2.3.4"
        ((rest_update (.end_session (some 9)) RState.empty).1) = true := by
  exact ⟨rfl, rfl, rfl⟩

/-- C8 amended: with dev mode disabled, the authorization decision is
true exactly when the caller's address equals the tracked `bike_ip`;
`start_session` captures the supplied address, and after `end_session`
the address is cleared so the decision is false for every caller. -/
theorem control_sidebar_auth (s : RState) (tS tE : Int)
    (ip caller : String) :
    (update_control_sidebar false caller s = true ↔
      s.bike_ip = some caller)
    ∧ (rest_update (.start_session (some tS) (some ip)) s).1.bike_ip
        = some ip
    ∧ update_control_sidebar false caller
        ((rest_update (.end_session (some tE)) s).1) = false := by
  refine ⟨?_, rfl, rfl⟩
  cases h : s.bike_ip <;> simp [update_control_sidebar, h]

/-- C10: a `new_data` event is accepted on a fresh store with no
`start_session` ever seen; after a following `end_session`, the store
has `endedAt` and points but no `startedAt`, and `update_metrics`
raises (returns no result) because the final branch reads the absent
`session_start` unconditionally. -/
theorem summary_orphan_end :
    (rest_update (.new_data ⟨some 5, some 10, some 3, some 80⟩)
        RState.empty).2 = .appended
    ∧ orphanEndState.session_start = none
    ∧ orphanEndState.session_end = some 6
    ∧ orphanEndState.timestamp ≠ []
    ∧ update_metrics orphanEndState = none := by
  refine ⟨rfl, rfl, rfl, by decide, rfl⟩

/-- C1: a well-formed `new_data` event is ignored as stale, with the
state unchanged, exactly when a stored head timestamp strictly exceeds
the incoming `t` or the session has ended; otherwise the sample is
pushed as the new head of all four series.  In particular an incoming
timestamp equal to the current head is accepted. -/
theorem new_data_stale_iff (s : RState) (t : Int) (mph hb : ℚ)
    (res : Int) :
    (isStale s t →
      rest_update (.new_data ⟨some t, some mph, some res, some hb⟩) s
        = (s, .ignoredStale))
    ∧ (¬ isStale s t →
      rest_update (.new_data ⟨some t, some mph, some res, some hb⟩) s
        = ({ s with
            timestamp := t :: s.timestamp,
            bike_mph := mph :: s.bike_mph,
            resistance := res :: s.resistance,
            heart_bpm := hb :: s.heart_bpm }, .appended))
    ∧ (s.timestamp.head? = some t → s.session_end = none →
      rest_update (.new_data ⟨some t, some mph, some res, some hb⟩) s
        = ({ s with
            timestamp := t :: s.timestamp,
            bike_mph := mph :: s.bike_mph,
            resistance := res :: s.resistance,
            heart_bpm := hb :: s.heart_bpm }, .appended)) := by
  have hpush : ∀ s' : RState,
      pushSample s' t ⟨some t, some mph, some res, some hb⟩
        = ({ s' with
            timestamp := t :: s'.timestamp,
            bike_mph := mph :: s'.bike_mph,
            resistance := res :: s'.resistance,
            heart_bpm := hb :: s'.heart_bpm }, .appended) := by
    intro s'
    rfl
  refine ⟨?_, ?_, ?_⟩
  · intro hst
    rcases hts : s.timestamp with _ | ⟨h0, rest⟩
    · rcases hst with ⟨h1, hh, _⟩ | hend
      · rw [hts] at hh
        simp at hh
      · simp [rest_update, hts, hend]
    · rcases hst with ⟨h1, hh, hgt⟩ | hend
      · rw [hts] at hh
        simp at hh
        subst hh
        simp [rest_update, hts, hgt]
      · by_cases hgt : h0 > t
        · simp [rest_update, hts, hgt]
        · simp [rest_update, hts, hgt, hend]
  · intro hns
    rcases hts : s.timestamp with _ | ⟨h0, rest⟩
    · have hend : s.session_end = none := by
        cases hse : s.session_end with
        | none => rfl
        | some x => exact absurd (Or.inr (by simp [hse])) hns
      simp [rest_update, hts, hend, hpush]
    · have hgt : ¬ h0 > t := by
        intro hc
        exact hns (Or.inl ⟨h0, by rw [hts]; rfl, hc⟩)
      have hend : s.session_end = none := by
        cases hse : s.session_end with
        | none => rfl
        | some x => exact absurd (Or.inr (by simp [hse])) hns
      simp [rest_update, hts, hgt, hend, hpush]
  · intro hh hend
    rcases hts : s.timestamp with _ | ⟨h0, rest⟩
    · rw [hts] at hh
      simp at hh
    · rw [hts] at hh
      simp at hh
      subst hh
      simp [rest_update, hts, hend, lt_irrefl, hpush]

/-- C3: when the session has ended but no points were ever recorded,
`update_metrics` produces the waiting placeholder, never the final
summary, and no mean or max over an empty series is computed. -/
theorem summary_ended_no_points (s : RState)
    (hend : s.session_end.isSome = true) (hempty : s.timestamp = []) :
    update_metrics s = some .waiting := by
  simp [update_metrics, hempty]

/-- C3 witness. -/
theorem summary_ended_no_points_witness :
    update_metrics { RState.empty with session_end := some 7 }
      = some Summary.waiting :=
  summary_ended_no_points { RState.empty with session_end := some 7 }
    rfl rfl

/-- C4: for an ended session whose stored speed series is [10, 20, 15]
at timestamps [100, 101, 102] (newest first in the store), the final
summary reports a speed mean of 15, a speed max of 20, and a duration
equal to `endedAt - startedAt`. -/
theorem summary_final_values (st en : Int) :
    update_metrics
      { powered_on := none,
        session_start := some st,
        session_end := some en,
        bike_ip := none,
        timestamp := [102, 101, 100],
        bike_mph := [15, 20, 10],
        resistance := [3, 3, 3],
        heart_bpm := [60, 60, 60] }
      = some (.final (en - st) en 15 20 3 3 60 60) := by
  simp [update_metrics, mean, meanInt, date_delta]
  norm_num

/-- C1 witness: a concrete stale rejection (session already ended) and a
concrete acceptance on a fresh store. -/
theorem new_data_stale_iff_witness :
    isStale { RState.empty with session_end := some 4 } 5
    ∧ rest_update (.new_data ⟨some 5, some 10, some 3, some 80⟩)
        { RState.empty with session_end := some 4 }
      = ({ RState.empty with session_end := some 4 }, .ignoredStale)
    ∧ ¬ isStale RState.empty 5
    ∧ rest_update (.new_data ⟨some 5, some 10, some 3, some 80⟩)
        RState.empty
      = ({ RState.empty with
          timestamp := [5],
          bike_mph := [10],
          resistance := [3],
          heart_bpm := [80] }, .appended) :=
  ⟨by decide, (new_data_stale_iff _ 5 10 80 3).1 (by decide),
   by decide, (new_data_stale_iff _ 5 10 80 3).2.1 (by decide)⟩

/-- C5 counterexample: from the state holding one accepted sample, a
`start_session` event lacking the origin-address field and a `new_data`
event lacking the resistance field each leave the store in a state
different from the one before the event arrived. -/
theorem malformed_mutates_cex :
    (rest_update (.start_session (some 10) none) oneSampleState).1
        ≠ oneSampleState
    ∧ (rest_update (.new_data ⟨some 6, some 11, none, some 81⟩)
        oneSampleState).1 ≠ oneSampleState := by
  constructor <;> decide

/-- C5 amended: a missing required field aborts the request with an
unhandled error, but the writes issued before the missing field was
read persist: `start_session` without the origin-address field still
flushes the store and sets `startedAt`, and a non-stale `new_data`
without the resistance field still pushes the timestamp and speed
entries while leaving the resistance and heart-rate series unchanged. -/
theorem malformed_keeps_prior_writes (s : RState) (t : Int) (mph : ℚ)
    (hb : Option ℚ) (hns : ¬ isStale s t) :
    rest_update (.start_session (some t) none) s
      = ({ RState.empty with session_start := some t }, .exn)
    ∧ rest_update (.new_data ⟨some t, some mph, none, hb⟩) s
      = ({ s with
          timestamp := t :: s.timestamp,
          bike_mph := mph :: s.bike_mph }, .exn) := by
  constructor
  · rfl
  · rcases hts : s.timestamp with _ | ⟨h0, rest⟩
    · have hend : s.session_end = none := by
        cases hse : s.session_end with
        | none => rfl
        | some x => exact absurd (Or.inr (by simp [hse])) hns
      simp [rest_update, hts, hend, pushSample]
    · have hgt : ¬ h0 > t := by
        intro hc
        exact hns (Or.inl ⟨h0, by rw [hts]; rfl, hc⟩)
      have hend : s.session_end = none := by
        cases hse : s.session_end with
        | none => rfl
        | some x => exact absurd (Or.inr (by simp [hse])) hns
      simp [rest_update, hts, hgt, hend, pushSample]

/-- C5 amended witness: the non-stale `new_data` case at a concrete
input. -/
theorem malformed_keeps_prior_writes_witness :
    ¬ isStale RState.empty 3
    ∧ rest_update (.new_data ⟨some 3, some 7, none, some 70⟩)
        RState.empty
      = ({ RState.empty with
          timestamp := [3],
          bike_mph := [7] }, .exn) :=
  ⟨by decide,
    (malformed_keeps_prior_writes RState.empty 3 7 (some 70)
      (by decide)).2⟩

/-- C6: with a configured maximum length of 3, appending five points in
increasing timestamp order leaves exactly the three most recent, and
with the unbounded setting (0) an append never trims. -/
theorem trim_keeps_newest (t1 t2 t3 t4 t5 : Int) (h12 : t1 < t2)
    (h23 : t2 < t3) (h34 : t3 < t4) (h45 : t4 < t5) :
    List.foldl (fun l t => appendTrim 3 t l) []
        [t1, t2, t3, t4, t5] = [t5, t4, t3]
    ∧ ∀ (t : Int) (l : List Int), appendTrim 0 t l = t :: l := by
  constructor
  · simp [appendTrim, trimSeries]
  · intro t l
    simp [appendTrim, trimSeries]

/-- C6 witness. -/
theorem trim_keeps_newest_witness :
    ((1 : Int) < 2 ∧ (2 : Int) < 3 ∧ (3 : Int) < 4 ∧ (4 : Int) < 5)
    ∧ List.foldl (fun l t => appendTrim 3 t l) []
        [1, 2, 3, 4, 5] = [5, 4, 3] :=
  ⟨⟨by decide, by decide, by decide, by decide⟩,
    (trim_keeps_newest 1 2 3 4 5 (by decide) (by decide) (by decide)
      (by decide)).1⟩

/-- C9: any completely processed event whose required payload fields are
all present preserves the equal-length invariant of the four parallel
series. -/
theorem series_lengths_aligned (e : Event) (s : RState)
    (hw : e.wellFormed) (hs : eqLens s) :
    eqLens (rest_update e s).1 := by
  obtain ⟨l1, l2, l3⟩ := hs
  cases e with
  | powered_on t =>
    rcases t with _ | t
    · simp [Event.wellFormed] at hw
    · exact ⟨l1, l2, l3⟩
  | start_session t ip =>
    obtain ⟨hwt, hwi⟩ := hw
    rcases t with _ | t
    · simp at hwt
    rcases ip with _ | ip
    · simp at hwi
    simp [rest_update, eqLens, RState.empty]
  | end_session t =>
    rcases t with _ | t
    · simp [Event.wellFormed] at hw
    · exact ⟨l1, l2, l3⟩
  | new_data p =>
    obtain ⟨t, mph, res, hb⟩ := p
    obtain ⟨hwt, hwm, hwr, hwh⟩ := hw
    rcases t with _ | t
    · simp at hwt
    rcases mph with _ | mph
    · simp at hwm
    rcases res with _ | res
    · simp at hwr
    rcases hb with _ | hb
    · simp at hwh
    have hpushed : eqLens { s with
        timestamp := t :: s.timestamp,
        bike_mph := mph :: s.bike_mph,
        resistance := res :: s.resistance,
        heart_bpm := hb :: s.heart_bpm } := by
      refine ⟨?_, ?_, ?_⟩ <;> simp <;> omega
    rcases hts : s.timestamp with _ | ⟨h0, rest2⟩
    · cases hse : s.session_end.isSome with
      | true =>
        have hres : (rest_update
            (.new_data ⟨some t, some mph, some res, some hb⟩) s).1 = s := by
          simp [rest_update, hts, hse]
        rw [hres]
        exact ⟨l1, l2, l3⟩
      | false =>
        have hres : (rest_update
            (.new_data ⟨some t, some mph, some res, some hb⟩) s).1
            = { s with
                timestamp := t :: s.timestamp,
                bike_mph := mph :: s.bike_mph,
                resistance := res :: s.resistance,
                heart_bpm := hb :: s.heart_bpm } := by
          simp [rest_update, hts, hse, pushSample]
        rw [hres]
        exact hpushed
    · by_cases hgt : h0 > t
      · have hres : (rest_update
            (.new_data ⟨some t, some mph, some res, some hb⟩) s).1 = s := by
          simp [rest_update, hts, hgt]
        rw [hres]
        exact ⟨l1, l2, l3⟩
      · cases hse : s.session_end.isSome with
        | true =>
          have hres : (rest_update
              (.new_data ⟨some t, some mph, some res, some hb⟩) s).1 = s := by
            simp [rest_update, hts, hgt, hse]
          rw [hres]
          exact ⟨l1, l2, l3⟩
        | false =>
          have hres : (rest_update
              (.new_data ⟨some t, some mph, some res, some hb⟩) s).1
              = { s with
                  timestamp := t :: s.timestamp,
                  bike_mph := mph :: s.bike_mph,
                  resistance := res :: s.resistance,
                  heart_bpm := hb :: s.heart_bpm } := by
            simp [rest_update, hts, hgt, hse, pushSample]
          rw [hres]
          exact hpushed
  | unknown name => exact ⟨l1, l2, l3⟩

/-- C9 witness: an accepted `new_data` event on the fresh store. -/
theorem series_lengths_aligned_witness :
    (Event.new_data ⟨some 1, some 2, some 3, some 4⟩).wellFormed
    ∧ eqLens RState.empty
    ∧ eqLens (rest_update (.new_data ⟨some 1, some 2, some 3, some 4⟩)
        RState.empty).1 :=
  ⟨⟨rfl, rfl, rfl, rfl⟩, ⟨rfl, rfl, rfl⟩,
    series_lengths_aligned _ _ ⟨rfl, rfl, rfl, rfl⟩ ⟨rfl, rfl, rfl⟩⟩

/-- C8 amended witness: after a concrete `start_session`, the matching
caller is authorized with dev mode disabled. -/
theorem control_sidebar_auth_witness :
    update_control_sidebar false "9.9.9.9"
        ((rest_update (.start_session (some 1) (some "9.9.9.9"))
          RState.empty).1) = true :=
  (control_sidebar_auth
    ((rest_update (.start_session (some 1) (some "9.9.9.9"))
      RState.empty).1) 1 2 "9.9.9.9" "9.9.9.9").1.mpr rfl
